import Mathlib

/-!
Verification of the WhatSon bootstrap launcher (src/cli/src/main.rs).

The launcher is embedded shallowly: the filesystem, the environment and
child-process spawning are oracles passed as explicit arguments, and each
Rust function becomes a Lean function that returns both its result and the
ordered trace of child processes it spawned.
-/

namespace WhatSon

/-- Read-only filesystem oracle: `isFile p` models `Path::is_file`,
`existsPath p` models `Path::exists`. -/
structure FS where
  isFile : String → Bool
  existsPath : String → Bool

/-- `Path::join` of a base path and a relative path, as used by the launcher
(all joined components are relative, so a separator is inserted). -/
def joinPath (p rel : String) : String := p ++ "/" ++ rel

/-- The constant `APP_EXECUTABLES` from main.rs: the three candidate
locations of a prebuilt executable, in priority order. -/
def APP_EXECUTABLES : List String :=
  ["build/src/app/bin/WhatSon.app/Contents/MacOS/WhatSon",
   "build/src/app/bin/WhatSon",
   "build/src/app/WhatSon"]

/-- Process environment as the launcher observes it:
`whatson_root` is the value of the `WHATSON_ROOT` variable when set
(`env::var` succeeded); `cwd_ancestors` is the ancestor chain of the
current working directory, nearest first, starting with the directory
itself (`env::current_dir` followed by `Path::ancestors`), `none` when the
working directory could not be read; `manifest_fallback` is the path
derived from `CARGO_MANIFEST_DIR` joined with `../..`, after
`canonicalize().unwrap_or_else(...)` (so already canonical when
canonicalization succeeded, the raw join otherwise). -/
structure Env where
  whatson_root : Option String
  cwd_ancestors : Option (List String)
  manifest_fallback : String

/-- Outcome of `Command::status()`: an I/O error while spawning or waiting,
or termination with `ExitStatus::code()` (which is `none` when the child
was terminated by a signal). -/
inductive SpawnOutcome where
  | ioError
  | status (code : Option Int)
deriving DecidableEq, Repr

/-- One child-process invocation: program and argument list. -/
structure SpawnCall where
  program : String
  args : List String
deriving DecidableEq, Repr

/-- A spawn oracle maps each invocation to its outcome. -/
def Spawner : Type := SpawnCall → SpawnOutcome

/-- `ExitStatus::success()`: true exactly when the exit code is zero. -/
def statusSuccess (code : Option Int) : Bool := code == some 0

/-- `is_project_root` from main.rs: a path is a valid root iff
`CMakeLists.txt` and `src/app/main.cpp` under it are regular files. -/
def is_project_root (fs : FS) (path : String) : Bool :=
  fs.isFile (joinPath path "CMakeLists.txt") &&
    fs.isFile (joinPath path "src/app/main.cpp")

/-- The ordered candidate list built by `discover_root`: the override
variable when set, then the working-directory ancestor chain, then the
build-metadata fallback path. -/
def candidates (e : Env) : List String :=
  e.whatson_root.toList ++ e.cwd_ancestors.getD [] ++ [e.manifest_fallback]

/-- The candidate loop of `discover_root`: skip paths already in `seen`
(the `HashSet`), test `is_project_root` on the rest, return at the first
valid path. The first component records, in order, every path on which
`is_project_root` was evaluated. -/
def discoverLoop (fs : FS) (seen : List String) :
    List String → List String × Option String
  | [] => ([], none)
  | p :: rest =>
    if p ∈ seen then discoverLoop fs seen rest
    else if is_project_root fs p then ([p], some p)
    else
      (p :: (discoverLoop fs (p :: seen) rest).1,
        (discoverLoop fs (p :: seen) rest).2)

/-- `discover_root` from main.rs: the first deduplicated candidate that is
a valid project root, or `none`. -/
def discover_root (e : Env) (fs : FS) : Option String :=
  (discoverLoop fs [] (candidates e)).2

/-- The paths on which `discover_root` evaluates `is_project_root`, in
order. -/
def evaluatedRoots (e : Env) (fs : FS) : List String :=
  (discoverLoop fs [] (candidates e)).1

/-- How `launch_prebuilt` turns a `Command::status()` outcome into its own
result: an I/O error is propagated as `Err`, a termination status yields
`Ok(status.success())`. -/
def spawnToLaunch (o : SpawnOutcome) : Except Unit Bool :=
  match o with
  | .ioError => .error ()
  | .status c => .ok (statusSuccess c)

/-- The candidate loop of `launch_prebuilt`: for the first relative path
whose join with the root is a regular file, spawn it (no arguments) and
return; if none is a file, return `Ok(false)`. The first component is the
trace of spawned processes. -/
def launchLoop (fs : FS) (sp : Spawner) (root : String) :
    List String → List SpawnCall × Except Unit Bool
  | [] => ([], .ok false)
  | rel :: rest =>
    let executable := joinPath root rel
    if fs.isFile executable then
      ([⟨executable, []⟩], spawnToLaunch (sp ⟨executable, []⟩))
    else launchLoop fs sp root rest

/-- `launch_prebuilt` from main.rs. -/
def launch_prebuilt (fs : FS) (sp : Spawner) (root : String) :
    List SpawnCall × Except Unit Bool :=
  launchLoop fs sp root APP_EXECUTABLES

/-- The cmake configure invocation of `run_cmake_target`:
`cmake -S root -B root/build`. -/
def configureCall (root : String) : SpawnCall :=
  ⟨"cmake", ["-S", root, "-B", joinPath root "build"]⟩

/-- The cmake build invocation of `run_cmake_target`:
`cmake --build root/build --target whatson_run_app`. -/
def buildCall (root : String) : SpawnCall :=
  ⟨"cmake", ["--build", joinPath root "build", "--target", "whatson_run_app"]⟩

/-- `run_cmake_target` from main.rs: when `root/build` does not exist, run
the configure step first and, if it fails, return its exit code
(defaulting to 1 for a signal) without building; otherwise run the build
step and return its exit code (defaulting to 1). I/O errors are `Err`.
The first component is the trace of spawned processes. -/
def run_cmake_target (fs : FS) (sp : Spawner) (root : String) :
    List SpawnCall × Except Unit Int :=
  if fs.existsPath (joinPath root "build") then
    match sp (buildCall root) with
    | .ioError => ([buildCall root], .error ())
    | .status c => ([buildCall root], .ok (c.getD 1))
  else
    match sp (configureCall root) with
    | .ioError => ([configureCall root], .error ())
    | .status c =>
      if statusSuccess c then
        match sp (buildCall root) with
        | .ioError => ([configureCall root, buildCall root], .error ())
        | .status c2 => ([configureCall root, buildCall root], .ok (c2.getD 1))
      else ([configureCall root], .ok (c.getD 1))

/-- The diagnostics main.rs prints to standard error. -/
inductive StderrMsg where
  | rootNotFound
  | prebuiltLaunchFailed
  | cmakeTargetFailed
deriving DecidableEq, Repr

/-- Observable behaviour of one run of the launcher: the ordered trace of
spawned child processes, the diagnostics printed to standard error, and
the process exit code. -/
structure RunResult where
  spawns : List SpawnCall
  stderr : List StderrMsg
  exitCode : Int
deriving DecidableEq, Repr

/-- `main` from main.rs: discover the root (exit 1 with a diagnostic when
absent); attempt the prebuilt launch, exiting 0 on `Ok(true)`, printing a
diagnostic on `Err` and falling through; then run the cmake target,
exiting with its code, or with 1 and a diagnostic on `Err`. -/
def mainRun (e : Env) (fs : FS) (sp : Spawner) : RunResult :=
  match discover_root e fs with
  | none => ⟨[], [.rootNotFound], 1⟩
  | some root =>
    match launch_prebuilt fs sp root with
    | (tr, .ok true) => ⟨tr, [], 0⟩
    | (tr, .ok false) =>
      match run_cmake_target fs sp root with
      | (tr2, .ok code) => ⟨tr ++ tr2, [], code⟩
      | (tr2, .error _) => ⟨tr ++ tr2, [.cmakeTargetFailed], 1⟩
    | (tr, .error _) =>
      match run_cmake_target fs sp root with
      | (tr2, .ok code) => ⟨tr ++ tr2, [.prebuiltLaunchFailed], code⟩
      | (tr2, .error _) =>
        ⟨tr ++ tr2, [.prebuiltLaunchFailed, .cmakeTargetFailed], 1⟩

/-! ## Concrete fixtures used to instantiate the theorems -/

/-- Fixture filesystem: a valid project root at `/proj`, no prebuilt
executable, no build directory. -/
def fsBare : FS :=
  ⟨fun s => ["/proj/CMakeLists.txt", "/proj/src/app/main.cpp"].contains s,
   fun _ => false⟩

/-- Fixture filesystem: a valid project root at `/proj` with a prebuilt
executable at the first-priority location and an existing build
directory. -/
def fsPrebuilt : FS :=
  ⟨fun s =>
      ["/proj/CMakeLists.txt", "/proj/src/app/main.cpp",
       "/proj/build/src/app/bin/WhatSon.app/Contents/MacOS/WhatSon"].contains s,
   fun s => s == "/proj/build"⟩

/-- Fixture filesystem: a valid project root at `/proj`, no prebuilt
executable, with an existing build directory. -/
def fsBuildDir : FS :=
  ⟨fun s => ["/proj/CMakeLists.txt", "/proj/src/app/main.cpp"].contains s,
   fun s => s == "/proj/build"⟩

/-- Fixture filesystem on which nothing exists. -/
def fsEmpty : FS := ⟨fun _ => false, fun _ => false⟩

/-- Fixture spawner: every child process exits with code 0. -/
def spZero : Spawner := fun _ => .status (some 0)

/-- Fixture spawner: the prebuilt executable under `/proj` exits with
code 2, every other child exits with code 0. -/
def spPrebuilt2 : Spawner := fun c =>
  if c.program == "/proj/build/src/app/bin/WhatSon.app/Contents/MacOS/WhatSon"
  then .status (some 2) else .status (some 0)

/-- Fixture spawner: every spawn fails with an I/O error. -/
def spErr : Spawner := fun _ => .ioError

/-- Fixture spawner: the cmake configure step exits with code 3, every
other child exits with code 0. -/
def spConf3 : Spawner := fun c =>
  if c.args.head? == some "-S" then .status (some 3) else .status (some 0)

/-- Fixture spawner: the cmake build step exits with code 4, every other
child exits with code 0. -/
def spBuild4 : Spawner := fun c =>
  if c.args.head? == some "--build" then .status (some 4) else .status (some 0)

/-! ## General lemmas about the candidate loops -/

/-- `List.find?` over an append finds a hit in the left part first. -/
lemma find?_append_left {α : Type} (p : α → Bool) :
    ∀ (l₁ l₂ : List α) (a : α),
      l₁.find? p = some a → (l₁ ++ l₂).find? p = some a := by
  intro l₁
  induction l₁ with
  | nil => intro l₂ a h; simp [List.find?] at h
  | cons x rest ih =>
    intro l₂ a h
    by_cases hx : p x
    · rw [List.find?_cons_of_pos _ hx] at h
      simpa [List.find?_cons_of_pos _ hx] using h
    · rw [List.find?_cons_of_neg _ hx] at h
      simpa [List.find?_cons_of_neg _ hx] using ih l₂ a h

/-- When nothing in `seen` is a valid root, the discovery loop returns the
first valid candidate, exactly as `List.find?` does. -/
lemma discoverLoop_snd_eq_find (fs : FS) :
    ∀ (cs seen : List String),
      (∀ s ∈ seen, is_project_root fs s = false) →
      (discoverLoop fs seen cs).2 = cs.find? (is_project_root fs) := by
  intro cs
  induction cs with
  | nil => intro seen _; simp [discoverLoop]
  | cons p rest ih =>
    intro seen hseen
    by_cases hp : p ∈ seen
    · have hinv : is_project_root fs p = false := hseen p hp
      simp [discoverLoop, hp, List.find?, hinv, ih seen hseen]
    · by_cases hval : is_project_root fs p
      · simp [discoverLoop, hp, hval, List.find?]
      · have hval' : is_project_root fs p = false := by simpa using hval
        have hseen' : ∀ s ∈ p :: seen, is_project_root fs s = false := by
          intro s hs
          rcases List.mem_cons.mp hs with h | h
          · simpa [h] using hval'
          · exact hseen s h
        simp [discoverLoop, hp, hval', List.find?, ih (p :: seen) hseen']

/-- `discover_root` is the first valid candidate. -/
lemma discover_root_eq_find (e : Env) (fs : FS) :
    discover_root e fs = (candidates e).find? (is_project_root fs) := by
  unfold discover_root
  exact discoverLoop_snd_eq_find fs (candidates e) [] (by simp)

/-- The discovery loop never evaluates a path it has already seen, and
never evaluates a path twice. -/
lemma discoverLoop_fst_nodup (fs : FS) :
    ∀ (cs seen : List String),
      (discoverLoop fs seen cs).1.Nodup ∧
        ∀ x ∈ (discoverLoop fs seen cs).1, x ∉ seen := by
  intro cs
  induction cs with
  | nil => intro seen; simp [discoverLoop]
  | cons p rest ih =>
    intro seen
    by_cases hp : p ∈ seen
    · simpa [discoverLoop, hp] using ih seen
    · by_cases hval : is_project_root fs p
      · simp [discoverLoop, hp, hval]
      · have hval' : is_project_root fs p = false := by simpa using hval
        obtain ⟨hnd, hns⟩ := ih (p :: seen)
        refine ⟨?_, ?_⟩
        · simp only [discoverLoop, if_neg hp, hval', if_false, Bool.false_eq_true]
          refine List.nodup_cons.mpr ⟨?_, hnd⟩
          intro hmem
          exact (hns p hmem) (List.mem_cons_self p seen)
        · intro x hx
          simp only [discoverLoop, if_neg hp, hval', if_false, Bool.false_eq_true,
            List.mem_cons] at hx
          rcases hx with h | h
          · simpa [h] using hp
          · intro hxs
            exact (hns x h) (List.mem_cons_of_mem p hxs)

/-- The evaluated paths form a sublist of the candidate list. -/
lemma discoverLoop_fst_sublist (fs : FS) :
    ∀ (cs seen : List String), (discoverLoop fs seen cs).1.Sublist cs := by
  intro cs
  induction cs with
  | nil => intro seen; simp [discoverLoop]
  | cons p rest ih =>
    intro seen
    by_cases hp : p ∈ seen
    · simp only [discoverLoop, if_pos hp]
      exact (ih seen).cons p
    · by_cases hval : is_project_root fs p
      · simp only [discoverLoop, if_neg hp, if_pos hval]
        exact (List.nil_sublist rest).cons₂ p
      · have hval' : is_project_root fs p = false := by simpa using hval
        simp only [discoverLoop, if_neg hp, hval']
        exact (ih (p :: seen)).cons₂ p

/-- When no candidate relative path joins to a regular file, the prebuilt
launch spawns nothing and reports `Ok(false)`. -/
lemma launchLoop_of_no_file (fs : FS) (sp : Spawner) (root : String) :
    ∀ rels : List String,
      (∀ rel ∈ rels, fs.isFile (joinPath root rel) = false) →
      launchLoop fs sp root rels = ([], .ok false) := by
  intro rels
  induction rels with
  | nil => intro _; simp [launchLoop]
  | cons rel rest ih =>
    intro h
    have h0 : fs.isFile (joinPath root rel) = false := h rel (by simp)
    have hrest : ∀ r ∈ rest, fs.isFile (joinPath root r) = false := by
      intro r hr; exact h r (List.mem_cons_of_mem rel hr)
    simp [launchLoop, h0, ih hrest]

/-- When some candidate joins to a regular file, the prebuilt launch
spawns exactly the first such file and returns the translated outcome. -/
lemma launchLoop_of_find (fs : FS) (sp : Spawner) (root : String) :
    ∀ (rels : List String) (rel₀ : String),
      rels.find? (fun rel => fs.isFile (joinPath root rel)) = some rel₀ →
      launchLoop fs sp root rels =
        ([⟨joinPath root rel₀, []⟩],
          spawnToLaunch (sp ⟨joinPath root rel₀, []⟩)) := by
  intro rels
  induction rels with
  | nil => intro rel₀ h; simp [List.find?] at h
  | cons rel rest ih =>
    intro rel₀ h
    by_cases hf : fs.isFile (joinPath root rel)
    · rw [List.find?_cons_of_pos _ (by simpa using hf)] at h
      injection h with h
      subst h
      simp [launchLoop, hf]
    · rw [List.find?_cons_of_neg _ (by simpa using hf)] at h
      have hf' : fs.isFile (joinPath root rel) = false := by simpa using hf
      simp [launchLoop, hf', ih rel₀ h]

/-- `run_cmake_target` always spawns at least one cmake process. -/
lemma run_cmake_target_spawns_ne_nil (fs : FS) (sp : Spawner) (root : String) :
    (run_cmake_target fs sp root).1 ≠ [] := by
  unfold run_cmake_target
  by_cases hb : fs.existsPath (joinPath root "build")
  · rcases hsp : sp (buildCall root) with _ | c <;> simp [hb, hsp]
  · rcases hsp : sp (configureCall root) with _ | c
    · simp [hb, hsp]
    · by_cases hc : statusSuccess c
      · rcases hsp2 : sp (buildCall root) with _ | c2 <;> simp [hb, hsp, hc, hsp2]
      · simp [hb, hsp, hc]

/-! ## Claims about root discovery -/

/-- C3: whenever the override variable `WHATSON_ROOT` is set to a path
satisfying the root-validity predicate, `discover_root` returns exactly
that path, in preference to every working-directory ancestor candidate,
even if some ancestor is also a valid root. -/
theorem C3_override_priority (e : Env) (fs : FS) (r : String)
    (hov : e.whatson_root = some r) (hval : is_project_root fs r = true) :
    discover_root e fs = some r := by
  rw [discover_root_eq_find]
  simp [candidates, hov, List.find?, hval]

/-- Witness for C3 at a concrete state: the override points at `/proj`,
which is valid, while the ancestor `/elsewhere` is also a candidate. -/
theorem C3_witness :
    discover_root ⟨some "/proj", some ["/elsewhere"], "/mf"⟩ fsBare =
      some "/proj" :=
  C3_override_priority ⟨some "/proj", some ["/elsewhere"], "/mf"⟩ fsBare
    "/proj" rfl (by decide)

/-- C4: with no override set, `discover_root` returns the nearest
working-directory ancestor (the working directory itself first) that
satisfies the root-validity predicate, and a path is a valid root iff it
contains both `CMakeLists.txt` and `src/app/main.cpp` as regular files. -/
theorem C4_nearest_ancestor (e : Env) (fs : FS) (l : List String) (a : String)
    (hov : e.whatson_root = none) (hcwd : e.cwd_ancestors = some l)
    (hfind : l.find? (is_project_root fs) = some a) :
    discover_root e fs = some a ∧
      ∀ p : String, is_project_root fs p = true ↔
        fs.isFile (joinPath p "CMakeLists.txt") = true ∧
          fs.isFile (joinPath p "src/app/main.cpp") = true := by
  constructor
  · rw [discover_root_eq_find]
    have : candidates e = l ++ [e.manifest_fallback] := by
      simp [candidates, hov, hcwd]
    rw [this]
    exact find?_append_left (is_project_root fs) l [e.manifest_fallback] a hfind
  · intro p
    simp [is_project_root, Bool.and_eq_true]

/-- Witness for C4 at a concrete state: from working directory
`/proj/sub`, the nearest valid ancestor `/proj` is returned. -/
theorem C4_witness :
    discover_root ⟨none, some ["/proj/sub", "/proj", "/"], "/mf"⟩ fsBare =
        some "/proj" ∧
      ∀ p : String, is_project_root fsBare p = true ↔
        fsBare.isFile (joinPath p "CMakeLists.txt") = true ∧
          fsBare.isFile (joinPath p "src/app/main.cpp") = true :=
  C4_nearest_ancestor ⟨none, some ["/proj/sub", "/proj", "/"], "/mf"⟩ fsBare
    ["/proj/sub", "/proj", "/"] "/proj" rfl rfl (by decide)

/-- C5: when no candidate in the ordered search list satisfies the
root-validity predicate, discovery returns `none` and the process prints a
diagnostic and exits with code 1 without spawning any child process. -/
theorem C5_no_root (e : Env) (fs : FS) (sp : Spawner)
    (h : ∀ c ∈ candidates e, is_project_root fs c = false) :
    discover_root e fs = none ∧
      mainRun e fs sp = ⟨[], [StderrMsg.rootNotFound], 1⟩ := by
  have hnone : discover_root e fs = none := by
    rw [discover_root_eq_find]
    exact List.find?_eq_none.mpr fun x hx => by simp [h x hx]
  exact ⟨hnone, by simp [mainRun, hnone]⟩

/-- Witness for C5 at a concrete state where no candidate is valid. -/
theorem C5_witness :
    discover_root ⟨some "/a", some ["/b", "/"], "/mf"⟩ fsEmpty = none ∧
      mainRun ⟨some "/a", some ["/b", "/"], "/mf"⟩ fsEmpty spZero =
        ⟨[], [StderrMsg.rootNotFound], 1⟩ :=
  C5_no_root ⟨some "/a", some ["/b", "/"], "/mf"⟩ fsEmpty spZero (by decide)

/-- C8: when the override path also occurs in the ancestor chain, the
root-validity predicate is evaluated at most once for that path; more
generally the evaluated paths are pairwise distinct and form an
order-preserving sublist of the candidate list. -/
theorem C8_dedup (e : Env) (fs : FS) (r : String) (l : List String)
    (hov : e.whatson_root = some r) (hcwd : e.cwd_ancestors = some l)
    (hmem : r ∈ l) :
    (evaluatedRoots e fs).count r ≤ 1 ∧
      (evaluatedRoots e fs).Nodup ∧
      (evaluatedRoots e fs).Sublist (candidates e) := by
  have hnd : (evaluatedRoots e fs).Nodup :=
    (discoverLoop_fst_nodup fs (candidates e) []).1
  exact ⟨List.nodup_iff_count_le_one.mp hnd r, hnd,
    discoverLoop_fst_sublist fs (candidates e) []⟩

/-- Witness for C8 at a concrete state where the override `/proj` also
appears in the ancestor chain. -/
theorem C8_witness :
    (evaluatedRoots ⟨some "/proj", some ["/proj", "/"], "/mf"⟩ fsEmpty).count
        "/proj" ≤ 1 ∧
      (evaluatedRoots ⟨some "/proj", some ["/proj", "/"], "/mf"⟩ fsEmpty).Nodup ∧
      (evaluatedRoots ⟨some "/proj", some ["/proj", "/"], "/mf"⟩
          fsEmpty).Sublist
        (candidates ⟨some "/proj", some ["/proj", "/"], "/mf"⟩) :=
  C8_dedup ⟨some "/proj", some ["/proj", "/"], "/mf"⟩ fsEmpty "/proj"
    ["/proj", "/"] rfl rfl (by decide)

/-! ## Claims about the launch dispatcher -/

/-- C1 counterexample: with a prebuilt executable at the first-priority
relative path that exits with the non-zero code 2, the build orchestrator
IS invoked and the overall exit code is 0, not 2 — refuting the claim
that the exit code always equals the executable's exit code and that
cmake is never invoked, regardless of the executable's status. -/
theorem C1_counterexample :
    fsPrebuilt.isFile
        (joinPath "/proj"
          "build/src/app/bin/WhatSon.app/Contents/MacOS/WhatSon") = true ∧
      spPrebuilt2
          ⟨joinPath "/proj"
            "build/src/app/bin/WhatSon.app/Contents/MacOS/WhatSon", []⟩ =
        .status (some 2) ∧
      (mainRun ⟨some "/proj", none, "/mf"⟩ fsPrebuilt spPrebuilt2).spawns.contains
        (buildCall "/proj") = true ∧
      (mainRun ⟨some "/proj", none, "/mf"⟩ fsPrebuilt spPrebuilt2).exitCode ≠ 2 := by
  refine ⟨by decide, by decide, by decide, by decide⟩

/-- C1 amended: when a prebuilt executable exists at the first-priority
relative path, the dispatcher executes it; if it exits with status zero
the process exits with code 0 (equal to the executable's exit code) and
the build orchestrator is never invoked; if it exits with non-zero status
the build-and-run fallback is invoked afterwards. -/
theorem C1_prebuilt_first_priority (e : Env) (fs : FS) (sp : Spawner)
    (root : String) (c : Option Int)
    (hroot : discover_root e fs = some root)
    (hfile : fs.isFile
      (joinPath root
        "build/src/app/bin/WhatSon.app/Contents/MacOS/WhatSon") = true)
    (hsp : sp ⟨joinPath root
        "build/src/app/bin/WhatSon.app/Contents/MacOS/WhatSon", []⟩ =
      .status c) :
    (statusSuccess c = true →
      mainRun e fs sp =
        ⟨[⟨joinPath root
            "build/src/app/bin/WhatSon.app/Contents/MacOS/WhatSon", []⟩],
          [], 0⟩) ∧
    (statusSuccess c = false →
      (mainRun e fs sp).spawns =
        ⟨joinPath root
            "build/src/app/bin/WhatSon.app/Contents/MacOS/WhatSon", []⟩ ::
          (run_cmake_target fs sp root).1 ∧
      (run_cmake_target fs sp root).1 ≠ []) := by
  have hpre : launch_prebuilt fs sp root =
      ([⟨joinPath root
          "build/src/app/bin/WhatSon.app/Contents/MacOS/WhatSon", []⟩],
        .ok (statusSuccess c)) := by
    simp [launch_prebuilt, launchLoop, APP_EXECUTABLES, hfile, hsp, spawnToLaunch]
  constructor
  · intro hc
    rw [hc] at hpre
    simp [mainRun, hroot, hpre]
  · intro hc
    rw [hc] at hpre
    rcases hcm : run_cmake_target fs sp root with ⟨tr2, res⟩
    cases res <;>
      simpa [mainRun, hroot, hpre, hcm] using
        run_cmake_target_spawns_ne_nil fs sp root

/-- Witness for the amended C1 at a concrete state: the prebuilt
executable at the first-priority path exits with code 0, so the process
exits 0 after spawning only that executable. -/
theorem C1_witness :
    (statusSuccess (some 0) = true →
      mainRun ⟨some "/proj", none, "/mf"⟩ fsPrebuilt spZero =
        ⟨[⟨joinPath "/proj"
            "build/src/app/bin/WhatSon.app/Contents/MacOS/WhatSon", []⟩],
          [], 0⟩) ∧
    (statusSuccess (some 0) = false →
      (mainRun ⟨some "/proj", none, "/mf"⟩ fsPrebuilt spZero).spawns =
        ⟨joinPath "/proj"
            "build/src/app/bin/WhatSon.app/Contents/MacOS/WhatSon", []⟩ ::
          (run_cmake_target fsPrebuilt spZero "/proj").1 ∧
      (run_cmake_target fsPrebuilt spZero "/proj").1 ≠ []) :=
  C1_prebuilt_first_priority ⟨some "/proj", none, "/mf"⟩ fsPrebuilt spZero
    "/proj" (some 0) (by decide) (by decide) rfl

/-- C2: when the prebuilt launch fails with an I/O error, a diagnostic is
printed to standard error and execution falls through to the
build-and-run fallback; when the reached cmake invocation fails with an
I/O error, a diagnostic is printed and the process exits with code 1 with
no further step after the cmake stage. -/
theorem C2_io_failure (e : Env) (fs : FS) (sp : Spawner) (root : String)
    (hroot : discover_root e fs = some root) :
    ((launch_prebuilt fs sp root).2 = .error () →
      StderrMsg.prebuiltLaunchFailed ∈ (mainRun e fs sp).stderr ∧
      (mainRun e fs sp).spawns =
        (launch_prebuilt fs sp root).1 ++ (run_cmake_target fs sp root).1) ∧
    ((launch_prebuilt fs sp root).2 ≠ .ok true →
      (run_cmake_target fs sp root).2 = .error () →
      StderrMsg.cmakeTargetFailed ∈ (mainRun e fs sp).stderr ∧
      (mainRun e fs sp).exitCode = 1 ∧
      (mainRun e fs sp).spawns =
        (launch_prebuilt fs sp root).1 ++ (run_cmake_target fs sp root).1) := by
  rcases hpre : launch_prebuilt fs sp root with ⟨tr, pres⟩
  rcases hcm : run_cmake_target fs sp root with ⟨tr2, cres⟩
  constructor
  · intro hperr
    simp only at hperr
    subst hperr
    cases cres <;> simp [mainRun, hroot, hpre, hcm]
  · intro hpne hcerr
    simp only at hpne hcerr
    subst hcerr
    rcases pres with _ | b
    · simp [mainRun, hroot, hpre, hcm]
    · cases b
      · simp [mainRun, hroot, hpre, hcm]
      · exact absurd rfl hpne

/-- Witness for C2 at a concrete state where every spawn fails with an
I/O error: both diagnostics appear and the process exits 1. -/
theorem C2_witness :
    ((launch_prebuilt fsPrebuilt spErr "/proj").2 = .error () →
      StderrMsg.prebuiltLaunchFailed ∈
          (mainRun ⟨some "/proj", none, "/mf"⟩ fsPrebuilt spErr).stderr ∧
      (mainRun ⟨some "/proj", none, "/mf"⟩ fsPrebuilt spErr).spawns =
        (launch_prebuilt fsPrebuilt spErr "/proj").1 ++
          (run_cmake_target fsPrebuilt spErr "/proj").1) ∧
    ((launch_prebuilt fsPrebuilt spErr "/proj").2 ≠ .ok true →
      (run_cmake_target fsPrebuilt spErr "/proj").2 = .error () →
      StderrMsg.cmakeTargetFailed ∈
          (mainRun ⟨some "/proj", none, "/mf"⟩ fsPrebuilt spErr).stderr ∧
      (mainRun ⟨some "/proj", none, "/mf"⟩ fsPrebuilt spErr).exitCode = 1 ∧
      (mainRun ⟨some "/proj", none, "/mf"⟩ fsPrebuilt spErr).spawns =
        (launch_prebuilt fsPrebuilt spErr "/proj").1 ++
          (run_cmake_target fsPrebuilt spErr "/proj").1) :=
  C2_io_failure ⟨some "/proj", none, "/mf"⟩ fsPrebuilt spErr "/proj" (by decide)

/-- C6: with no prebuilt executable at any of the three locations and no
existing build directory, the dispatcher invokes only the configure step
(`cmake -S root -B root/build`); when configure exits with a non-zero
code, the build step is never invoked and that code becomes the process
exit code. -/
theorem C6_configure_failure (e : Env) (fs : FS) (sp : Spawner)
    (root : String) (c : Int)
    (hroot : discover_root e fs = some root)
    (hnofile : ∀ rel ∈ APP_EXECUTABLES, fs.isFile (joinPath root rel) = false)
    (hnobuild : fs.existsPath (joinPath root "build") = false)
    (hconf : sp (configureCall root) = .status (some c))
    (hc : c ≠ 0) :
    mainRun e fs sp = ⟨[configureCall root], [], c⟩ := by
  have hpre : launch_prebuilt fs sp root = ([], .ok false) :=
    launchLoop_of_no_file fs sp root APP_EXECUTABLES hnofile
  have hsucc : statusSuccess (some c) = false := by
    simp [statusSuccess, hc]
  have hcm : run_cmake_target fs sp root = ([configureCall root], .ok c) := by
    simp [run_cmake_target, hnobuild, hconf, hsucc]
  simp [mainRun, hroot, hpre, hcm]

/-- Witness for C6 at a concrete state where configure exits 3: the run
spawns only the configure step and exits 3. -/
theorem C6_witness :
    mainRun ⟨some "/proj", none, "/mf"⟩ fsBare spConf3 =
      ⟨[configureCall "/proj"], [], 3⟩ :=
  C6_configure_failure ⟨some "/proj", none, "/mf"⟩ fsBare spConf3 "/proj" 3
    (by decide) (by decide) rfl rfl (by decide)

/-- C7: with no prebuilt executable at any of the three locations and an
already-existing build directory, the configure step is never invoked;
the build step (`cmake --build root/build --target whatson_run_app`) is
invoked directly and its exit code becomes the process exit code. -/
theorem C7_skip_configure (e : Env) (fs : FS) (sp : Spawner)
    (root : String) (c : Int)
    (hroot : discover_root e fs = some root)
    (hnofile : ∀ rel ∈ APP_EXECUTABLES, fs.isFile (joinPath root rel) = false)
    (hbuild : fs.existsPath (joinPath root "build") = true)
    (hbsp : sp (buildCall root) = .status (some c)) :
    mainRun e fs sp = ⟨[buildCall root], [], c⟩ := by
  have hpre : launch_prebuilt fs sp root = ([], .ok false) :=
    launchLoop_of_no_file fs sp root APP_EXECUTABLES hnofile
  have hcm : run_cmake_target fs sp root = ([buildCall root], .ok c) := by
    simp [run_cmake_target, hbuild, hbsp]
  simp [mainRun, hroot, hpre, hcm]

/-- Witness for C7 at a concrete state where the build step exits 4: the
run spawns only the build step and exits 4. -/
theorem C7_witness :
    mainRun ⟨some "/proj", none, "/mf"⟩ fsBuildDir spBuild4 =
      ⟨[buildCall "/proj"], [], 4⟩ :=
  C7_skip_configure ⟨some "/proj", none, "/mf"⟩ fsBuildDir spBuild4 "/proj" 4
    (by decide) (by decide) rfl rfl

/-- C9: the prebuilt launch inspects the three candidate relative paths
in order; for the first one that is a regular file it spawns exactly that
executable, waits, and returns the translated success/failure outcome; at
most one candidate is ever executed and no later candidate is tried. -/
theorem C9_first_match_final (fs : FS) (sp : Spawner) (root rel₀ : String)
    (hfind : APP_EXECUTABLES.find?
      (fun rel => fs.isFile (joinPath root rel)) = some rel₀) :
    launch_prebuilt fs sp root =
        ([⟨joinPath root rel₀, []⟩],
          spawnToLaunch (sp ⟨joinPath root rel₀, []⟩)) ∧
      (launch_prebuilt fs sp root).1.length ≤ 1 := by
  have h := launchLoop_of_find fs sp root APP_EXECUTABLES rel₀ hfind
  exact ⟨h, by simp [launch_prebuilt] at h ⊢; simp [h]⟩

/-- Witness for C9 at a concrete state: the first-priority location holds
a file that exits non-zero, the outcome is `Ok(false)` after exactly one
spawn. -/
theorem C9_witness :
    launch_prebuilt fsPrebuilt spPrebuilt2 "/proj" =
        ([⟨joinPath "/proj"
            "build/src/app/bin/WhatSon.app/Contents/MacOS/WhatSon", []⟩],
          spawnToLaunch
            (spPrebuilt2
              ⟨joinPath "/proj"
                "build/src/app/bin/WhatSon.app/Contents/MacOS/WhatSon",
                []⟩)) ∧
      (launch_prebuilt fsPrebuilt spPrebuilt2 "/proj").1.length ≤ 1 :=
  C9_first_match_final fsPrebuilt spPrebuilt2 "/proj"
    "build/src/app/bin/WhatSon.app/Contents/MacOS/WhatSon" (by decide)

/-- C10: the prebuilt launch reports `Ok(false)` both when no candidate
location is a regular file and when the first matching executable runs to
completion with a non-zero status; on every `Ok(false)` the entry point
then invokes the build-and-run fallback, which spawns at least one cmake
process. -/
theorem C10_ok_false_ambiguity (e : Env) (fs : FS) (sp : Spawner)
    (root : String) (hroot : discover_root e fs = some root) :
    ((∀ rel ∈ APP_EXECUTABLES, fs.isFile (joinPath root rel) = false) →
      (launch_prebuilt fs sp root).2 = .ok false) ∧
    (∀ (rel₀ : String) (c : Option Int),
      APP_EXECUTABLES.find?
          (fun rel => fs.isFile (joinPath root rel)) = some rel₀ →
      sp ⟨joinPath root rel₀, []⟩ = .status c → statusSuccess c = false →
      (launch_prebuilt fs sp root).2 = .ok false) ∧
    ((launch_prebuilt fs sp root).2 = .ok false →
      (mainRun e fs sp).spawns =
        (launch_prebuilt fs sp root).1 ++ (run_cmake_target fs sp root).1 ∧
      (run_cmake_target fs sp root).1 ≠ []) := by
  refine ⟨?_, ?_, ?_⟩
  · intro hnofile
    simp [launchLoop_of_no_file fs sp root APP_EXECUTABLES hnofile,
      launch_prebuilt]
  · intro rel₀ c hfind hsp hfail
    simp [launchLoop_of_find fs sp root APP_EXECUTABLES rel₀ hfind,
      launch_prebuilt, hsp, spawnToLaunch, hfail]
  · intro hfalse
    rcases hpre : launch_prebuilt fs sp root with ⟨tr, pres⟩
    rw [hpre] at hfalse
    simp only at hfalse
    subst hfalse
    rcases hcm : run_cmake_target fs sp root with ⟨tr2, cres⟩
    have hne := run_cmake_target_spawns_ne_nil fs sp root
    rw [hcm] at hne
    cases cres <;> simp_all [mainRun, hroot, hpre, hcm]

/-- Witness for C10 at a concrete state where the prebuilt executable
exits with code 2: the outcome is `Ok(false)` and cmake is invoked
afterwards. -/
theorem C10_witness :
    ((∀ rel ∈ APP_EXECUTABLES,
        fsPrebuilt.isFile (joinPath "/proj" rel) = false) →
      (launch_prebuilt fsPrebuilt spPrebuilt2 "/proj").2 = .ok false) ∧
    (∀ (rel₀ : String) (c : Option Int),
      APP_EXECUTABLES.find?
          (fun rel => fsPrebuilt.isFile (joinPath "/proj" rel)) = some rel₀ →
      spPrebuilt2 ⟨joinPath "/proj" rel₀, []⟩ = .status c →
      statusSuccess c = false →
      (launch_prebuilt fsPrebuilt spPrebuilt2 "/proj").2 = .ok false) ∧
    ((launch_prebuilt fsPrebuilt spPrebuilt2 "/proj").2 = .ok false →
      (mainRun ⟨some "/proj", none, "/mf"⟩ fsPrebuilt spPrebuilt2).spawns =
        (launch_prebuilt fsPrebuilt spPrebuilt2 "/proj").1 ++
          (run_cmake_target fsPrebuilt spPrebuilt2 "/proj").1 ∧
      (run_cmake_target fsPrebuilt spPrebuilt2 "/proj").1 ≠ []) :=
  C10_ok_false_ambiguity ⟨some "/proj", none, "/mf"⟩ fsPrebuilt spPrebuilt2
    "/proj" (by decide)

end WhatSon
